import Mathlib

/-!
# Verification of the Policy-App backend core

A shallow embedding of the request handlers of the policy/bylaw/suggestion
backend (`app/routers/policies.py`, `bylaws.py`, `suggestions.py`, `auth.py`)
over an explicit database state, together with proofs of the specified
properties of the draft/approve workflow, version snapshotting, the
suggestion intake and the review ledger.

Modelling conventions:
* The relational store is a record of lists of typed rows; `insert` appends,
  `update` maps over the rows matched by the equality filters, `delete`
  filters them out, mirroring the filter-and-execute query interface.
* Surrogate keys (UUIDs) are `String`s drawn from a `next_id` counter.
* Timestamps are `Nat`s; each handler receives the current time `now`
  (every `datetime.utcnow()` call inside one request yields this value).
* A handler returns `Except Nat α × DB`: the `Nat` is the HTTP status code
  of a raised `HTTPException`, and the second component is the store after
  the handler ran (failures raised before any write leave it unchanged).
* Python string/None truthiness (`if not x:`) is modelled by `truthyS`.
-/

/-- Python truthiness of an optional string: `None` and `""` are falsy. -/
def truthyS : Option String → Bool
  | none => false
  | some s => !(s == "")

/-- `listPrefixOf n h` is true iff `n` is a prefix of `h` (over characters). -/
def listPrefixOf : List Char → List Char → Bool
  | [], _ => true
  | _ :: _, [] => false
  | a :: as, b :: bs => a == b && listPrefixOf as bs

/-- `listInfixOf n h` is true iff `n` occurs contiguously in `h`:
the Python substring test `n in h`. -/
def listInfixOf (needle : List Char) : List Char → Bool
  | [] => listPrefixOf needle []
  | c :: rest => listPrefixOf needle (c :: rest) || listInfixOf needle rest

/-- Python `s.lower()`, as a character list. -/
def lowerStr (s : String) : List Char := s.data.map Char.toLower

/-- Python `needle.lower() in hay.lower()`. -/
def containsCI (hay needle : String) : Bool :=
  listInfixOf (lowerStr needle) (lowerStr hay)

/-- A row of the `policies` table. -/
structure PolicyRow where
  id : String
  policy_id : String
  name : String
  «section» : String
  content : String
  status : String
  created_at : Nat
  updated_at : Nat
  created_by : Option String
  updated_by : Option String
deriving Repr, DecidableEq

/-- A row of the `policy_versions` table; `policy_id` is the FK to
`policies.id` (the surrogate key, not the human code). -/
structure PolicyVersionRow where
  policy_id : String
  version_number : Nat
  name : String
  «section» : String
  content : String
  status : String
  created_at : Nat
  created_by : Option String
deriving Repr, DecidableEq

/-- A row of the `bylaws` table. -/
structure BylawRow where
  id : String
  number : Int
  title : String
  content : String
  status : String
  created_at : Nat
  updated_at : Nat
  created_by : Option String
  updated_by : Option String
deriving Repr, DecidableEq

/-- A row of the `suggestions` table; `policy_id`/`bylaw_id` are FK
surrogate keys. -/
structure SuggestionRow where
  id : String
  policy_id : Option String
  bylaw_id : Option String
  suggestion : String
  status : String
  created_at : Nat
  updated_at : Nat
deriving Repr, DecidableEq

/-- A row of the `policy_reviews` table (`policy_id` is the human code). -/
structure PolicyReviewRow where
  policy_id : String
  user_email : String
  review_status : String
  created_at : Nat
  updated_at : Nat
deriving Repr, DecidableEq

/-- A row of the `users` table. -/
structure UserRow where
  id : String
  email : String
  role : String
  name : Option String
deriving Repr, DecidableEq

/-- The whole relational store, plus a counter for fresh surrogate keys. -/
structure DB where
  policies : List PolicyRow
  policy_versions : List PolicyVersionRow
  bylaws : List BylawRow
  suggestions : List SuggestionRow
  policy_reviews : List PolicyReviewRow
  users : List UserRow
  next_id : Nat
deriving Repr, DecidableEq

/-- The surrogate key the store assigns to the next inserted row. -/
def freshId (db : DB) : String := toString db.next_id

/-- The `current_user` dict produced by the auth dependency. -/
structure Identity where
  id : Option String
  email : Option String
  role : String
deriving Repr, DecidableEq

/-- `require_admin`: the role check of the admin-only dependency. -/
def require_admin (role : String) : Bool := role == "admin"

/-- The role check of the admin-or-policy-working-group dependency. -/
def require_suggestion_manager (role : String) : Bool :=
  role == "admin" || role == "policy_working_group"

/-- Request body `PolicyCreate` (the `status` field is caller-supplied and,
as proved below, ignored by `create_policy`). -/
structure PolicyCreate where
  policy_id : String
  policy_name : String
  «section» : String
  policy_content : String
  status : String
deriving Repr, DecidableEq

/-- Request body `PolicyUpdate`; unset fields are untouched. -/
structure PolicyUpdate where
  policy_name : Option String
  «section» : Option String
  policy_content : Option String
  status : Option String
deriving Repr, DecidableEq

/-- Request body `BylawCreate`. -/
structure BylawCreate where
  bylaw_number : Int
  bylaw_title : String
  bylaw_content : String
  status : String
deriving Repr, DecidableEq

/-- Request body `BylawUpdate`. -/
structure BylawUpdate where
  bylaw_number : Option Int
  bylaw_title : Option String
  bylaw_content : Option String
  status : Option String
deriving Repr, DecidableEq

/-- Request body `SuggestionCreate` (`policy_id` is the human code,
`bylaw_id` the surrogate key, exactly as the route expects). -/
structure SuggestionCreate where
  policy_id : Option String
  bylaw_id : Option String
  suggestion : String
  status : String
deriving Repr, DecidableEq

/-- A handler result: HTTP error code or value, and the store afterwards. -/
abbrev Res (α : Type) := Except Nat α × DB

/-! ## Policy routes (`app/routers/policies.py`) -/

/-- `convert_policy_from_db`: maps storage column names to API field names
(`name → policy_name`, `content → policy_content`), producing the response
dict.  Only the string-valued keys are kept here, which are exactly the
keys the list-endpoint search filters read; the timestamp/actor keys are
never consulted by any logic under verification. -/
def convert_policy_from_db (row : PolicyRow) : List (String × String) :=
  [("id", row.id), ("policy_id", row.policy_id), ("policy_name", row.name),
   ("section", row.«section»), ("policy_content", row.content),
   ("status", row.status)]

/-- Python `d.get(k, dflt)` on a dict represented as an association list. -/
def dget (d : List (String × String)) (k dflt : String) : String :=
  match d.find? (fun kv => kv.1 == k) with
  | some kv => kv.2
  | none => dflt

/-- String order used to model the storage `order(...)` clauses. -/
def leStr (a b : String) : Bool :=
  match compare a b with
  | .gt => false
  | _ => true

/-- Insert into a sorted list (stable). -/
def insertSorted (le : α → α → Bool) (x : α) : List α → List α
  | [] => [x]
  | y :: ys => if le x y then x :: y :: ys else y :: insertSorted le x ys

/-- Stable insertion sort, modelling the storage ordering. -/
def sortByLe (le : α → α → Bool) : List α → List α
  | [] => []
  | x :: xs => insertSorted le x (sortByLe le xs)

/-- Policy list ordering: by `section`, then by `policy_id`. -/
def policyLe (a b : PolicyRow) : Bool :=
  if a.«section» == b.«section» then leStr a.policy_id b.policy_id
  else leStr a.«section» b.«section»

/-- `get_policies` (admin or policy_working_group): optional status /
section / policy_id equality filters, ordering, the `range(offset,
offset+limit-1)` window (the store orders before windowing), conversion to
response dicts, then the in-Python search filter over `policy_name`,
`policy_id` and `policy_content` (case-insensitive). -/
def get_policies (db : DB) (status? sect? search? policy_id? : Option String)
    (limit offset : Nat) (cu : Identity) :
    Except Nat (List (List (String × String))) :=
  if !(require_suggestion_manager cu.role) then .error 403
  else
    let rows := db.policies
    let rows := match status? with
      | some s => rows.filter (fun r => r.status == s)
      | none => rows
    let rows := if truthyS sect? then
        rows.filter (fun r => r.«section» == sect?.getD "") else rows
    let rows := if truthyS policy_id? then
        rows.filter (fun r => r.policy_id == policy_id?.getD "") else rows
    let rows := sortByLe policyLe rows
    let rows := (rows.drop offset).take limit
    let policies := rows.map convert_policy_from_db
    if truthyS search? then
      let s := search?.getD ""
      .ok (policies.filter (fun p =>
        containsCI (dget p "policy_name" "") s ||
        containsCI (dget p "policy_id" "") s ||
        containsCI (dget p "policy_content" "") s))
    else .ok policies

/-- `get_approved_policies` (public): hard `status = "approved"` filter,
optional section filter, ordering, conversion, then the in-Python search
filter.  NOTE: translated exactly as written in the source — the search
reads the keys `"name"` and `"content"`, which the converted dicts do not
carry (they carry `"policy_name"`/`"policy_content"`), so those two
`get` calls fall back to `""`. -/
def get_approved_policies (db : DB) (sect? search? : Option String) :
    Except Nat (List (List (String × String))) :=
  let rows := db.policies.filter (fun r => r.status == "approved")
  let rows := if truthyS sect? then
      rows.filter (fun r => r.«section» == sect?.getD "") else rows
  let rows := sortByLe policyLe rows
  let policies := rows.map convert_policy_from_db
  if truthyS search? then
    let s := search?.getD ""
    .ok (policies.filter (fun p =>
      containsCI (dget p "name" "") s ||
      containsCI (dget p "policy_id" "") s ||
      containsCI (dget p "content" "") s))
  else .ok policies

/-- `get_approved_policy_by_id` (public): single fetch by human code,
restricted to `status = "approved"`; 404 otherwise. -/
def get_approved_policy_by_id (db : DB) (policy_id : String) :
    Except Nat PolicyRow :=
  match db.policies.filter
      (fun r => r.policy_id == policy_id && r.status == "approved") with
  | [] => .error 404
  | r :: _ => .ok r

/-- `create_policy`: 400 if the human code exists; otherwise inserts with
status forced to `"draft"`, actor stamped as creator and updater, and both
timestamps set to `now`.  The caller-supplied `policy.status` is never
read. -/
def create_policy (db : DB) (policy : PolicyCreate) (cu : Identity)
    (now : Nat) : Res PolicyRow :=
  if !(require_suggestion_manager cu.role) then (.error 403, db)
  else if !(db.policies.filter
      (fun r => r.policy_id == policy.policy_id)).isEmpty then
    (.error 400, db)
  else
    let row : PolicyRow :=
      { id := freshId db, policy_id := policy.policy_id,
        name := policy.policy_name, «section» := policy.«section»,
        content := policy.policy_content, status := "draft",
        created_at := now, updated_at := now,
        created_by := cu.id, updated_by := cu.id }
    (.ok row, { db with policies := db.policies ++ [row],
                        next_id := db.next_id + 1 })

/-- The change-set test of `update_policy`: some supplied field differs
from the current row, or the forced `"draft"` status differs from the
current status (`"status"` is always in `update_data`). -/
def policy_has_changes (ex : PolicyRow) (u : PolicyUpdate) : Bool :=
  u.policy_name.any (fun v => v != ex.name) ||
  u.«section».any (fun v => v != ex.«section») ||
  u.policy_content.any (fun v => v != ex.content) ||
  "draft" != ex.status

/-- Max `version_number` among the given version rows (`0` when none);
the source obtains it by ordering descending and taking the first row. -/
def maxVersionNumber (vs : List PolicyVersionRow) : Nat :=
  vs.foldl (fun acc v => max acc v.version_number) 0

/-- `next_version` as computed by `update_policy`: prior max + 1, or `1`
when no version rows exist for this surrogate key. -/
def nextVersion (db : DB) (policy_uuid : String) : Nat :=
  let vs := db.policy_versions.filter (fun v => v.policy_id == policy_uuid)
  if vs.isEmpty then 1 else maxVersionNumber vs + 1

/-- The `update_data` applied to a matched policy row: supplied fields,
status forced to `"draft"`, update stamp. -/
def applyPolicyUpdate (u : PolicyUpdate) (cu : Identity) (now : Nat)
    (r : PolicyRow) : PolicyRow :=
  { r with name := u.policy_name.getD r.name,
           «section» := u.«section».getD r.«section»,
           content := u.policy_content.getD r.content,
           status := "draft", updated_at := now, updated_by := cu.id }

/-- The pre-update snapshot row `update_policy` writes to
`policy_versions`. -/
def versionSnapshot (db : DB) (ex : PolicyRow) (cu : Identity) (now : Nat) :
    PolicyVersionRow :=
  { policy_id := ex.id, version_number := nextVersion db ex.id,
    name := ex.name, «section» := ex.«section», content := ex.content,
    status := ex.status, created_at := now, created_by := cu.id }

/-- `update_policy`: 404 if the human code does not resolve; computes the
change-set; when non-empty, first appends the pre-update snapshot at
`next_version`, then applies `update_data` (with the update stamp) to the
rows matching the code; returns the first updated row. -/
def update_policy (db : DB) (policy_id : String) (u : PolicyUpdate)
    (cu : Identity) (now : Nat) : Res PolicyRow :=
  if !(require_suggestion_manager cu.role) then (.error 403, db)
  else
    match db.policies.filter (fun r => r.policy_id == policy_id) with
    | [] => (.error 404, db)
    | ex :: _ =>
      let db1 := if policy_has_changes ex u then
          { db with policy_versions :=
              db.policy_versions ++ [versionSnapshot db ex cu now] }
        else db
      let db2 := { db1 with policies := db1.policies.map (fun r =>
          if r.policy_id == policy_id then applyPolicyUpdate u cu now r
          else r) }
      (.ok (applyPolicyUpdate u cu now ex), db2)

/-- `delete_policy` (admin): 404 if the code does not resolve, otherwise
removes the matching rows. -/
def delete_policy (db : DB) (policy_id : String) (cu : Identity) : Res Unit :=
  if !(require_admin cu.role) then (.error 403, db)
  else if (db.policies.filter
      (fun r => r.policy_id == policy_id)).isEmpty then (.error 404, db)
  else
    let kept := db.policies.filter (fun r => !(r.policy_id == policy_id))
    (.ok (), { db with policies := kept })

/-- `approve_policy` (admin): 404 if unresolved, 400 if the current status
is already `"approved"`, otherwise sets status to `"approved"` with the
update stamp, leaving every other field unchanged. -/
def approve_policy (db : DB) (policy_id : String) (cu : Identity)
    (now : Nat) : Res PolicyRow :=
  if !(require_admin cu.role) then (.error 403, db)
  else
    match db.policies.filter (fun r => r.policy_id == policy_id) with
    | [] => (.error 404, db)
    | ex :: _ =>
      if ex.status == "approved" then (.error 400, db)
      else
        let upd := fun (r : PolicyRow) =>
          if r.policy_id == policy_id then
            { r with status := "approved", updated_at := now,
                     updated_by := cu.id }
          else r
        (.ok (upd ex), { db with policies := db.policies.map upd })

/-- The email `submit_policy_review` resolves for the acting identity:
the identity's own email if truthy, else the email of the users-table row
with the identity's id; `none` when the final value is still falsy. -/
def resolve_review_email (db : DB) (cu : Identity) : Option String :=
  let e0 := cu.email
  let e1 := if truthyS e0 then e0
    else match cu.id with
      | some uid =>
        (match db.users.filter (fun w => w.id == uid) with
         | [] => e0
         | w :: _ => some w.email)
      | none => e0
  if truthyS e1 then e1 else none

/-- The `policy_reviews` rows matched by the upsert's two equality
filters (`policy_id`, `user_email`). -/
def pairRows (db : DB) (policy_id user_email : String) :
    List PolicyReviewRow :=
  db.policy_reviews.filter
    (fun r => r.policy_id == policy_id && r.user_email == user_email)

/-- `submit_policy_review`: 401 without an identity, 400 when no email
resolves, 404 when the policy code does not resolve; otherwise upserts by
(policy code, email): updates `review_status`/`updated_at` of the matching
rows when one exists, else inserts a fresh row with `created_at` set. -/
def submit_policy_review (db : DB) (policy_id : String)
    (review_status : String) (cu? : Option Identity) (now : Nat) : Res Unit :=
  match cu? with
  | none => (.error 401, db)
  | some cu =>
    match resolve_review_email db cu with
    | none => (.error 400, db)
    | some user_email =>
      if (db.policies.filter
          (fun r => r.policy_id == policy_id)).isEmpty then (.error 404, db)
      else if !(pairRows db policy_id user_email).isEmpty
      then
        (.ok (), { db with policy_reviews := db.policy_reviews.map (fun r =>
          if r.policy_id == policy_id && r.user_email == user_email then
            { r with review_status := review_status, updated_at := now }
          else r) })
      else
        (.ok (), { db with policy_reviews := db.policy_reviews ++
          [{ policy_id := policy_id, user_email := user_email,
             review_status := review_status,
             created_at := now, updated_at := now }] })

/-- `reset_all_policy_reviews` (admin): deletes every review row (the
source gathers all ids and deletes by id-list) and reports the count. -/
def reset_all_policy_reviews (db : DB) (cu : Identity) : Res Nat :=
  if !(require_admin cu.role) then (.error 403, db)
  else (.ok db.policy_reviews.length, { db with policy_reviews := [] })

/-! ## Bylaw routes (`app/routers/bylaws.py`) -/

/-- `create_bylaw`: 400 if the bylaw number exists; otherwise inserts with
status forced to `"draft"`, actor stamped, both timestamps `now`. -/
def create_bylaw (db : DB) (bylaw : BylawCreate) (cu : Identity)
    (now : Nat) : Res BylawRow :=
  if !(require_suggestion_manager cu.role) then (.error 403, db)
  else if !(db.bylaws.filter
      (fun r => r.number == bylaw.bylaw_number)).isEmpty then
    (.error 400, db)
  else
    let row : BylawRow :=
      { id := freshId db, number := bylaw.bylaw_number,
        title := bylaw.bylaw_title, content := bylaw.bylaw_content,
        status := "draft", created_at := now, updated_at := now,
        created_by := cu.id, updated_by := cu.id }
    (.ok row, { db with bylaws := db.bylaws ++ [row],
                        next_id := db.next_id + 1 })

/-- The `update_data` applied to a matched bylaw row: supplied fields,
status forced to `"draft"`, update stamp. -/
def applyBylawUpdate (u : BylawUpdate) (cu : Identity) (now : Nat)
    (r : BylawRow) : BylawRow :=
  { r with number := u.bylaw_number.getD r.number,
           title := u.bylaw_title.getD r.title,
           content := u.bylaw_content.getD r.content,
           status := "draft", updated_at := now, updated_by := cu.id }

/-- `update_bylaw`: 404 if the surrogate key does not resolve; otherwise
applies the supplied fields with status forced to `"draft"` (no version
history exists for bylaws). -/
def update_bylaw (db : DB) (bylaw_id : String) (u : BylawUpdate)
    (cu : Identity) (now : Nat) : Res BylawRow :=
  if !(require_suggestion_manager cu.role) then (.error 403, db)
  else
    match db.bylaws.filter (fun r => r.id == bylaw_id) with
    | [] => (.error 404, db)
    | ex :: _ =>
      (.ok (applyBylawUpdate u cu now ex),
       { db with bylaws := db.bylaws.map (fun r =>
           if r.id == bylaw_id then applyBylawUpdate u cu now r else r) })

/-- `approve_bylaw` (admin): 404 if unresolved, 400 if already approved,
otherwise sets status to `"approved"` with the update stamp. -/
def approve_bylaw (db : DB) (bylaw_id : String) (cu : Identity)
    (now : Nat) : Res BylawRow :=
  if !(require_admin cu.role) then (.error 403, db)
  else
    match db.bylaws.filter (fun r => r.id == bylaw_id) with
    | [] => (.error 404, db)
    | ex :: _ =>
      if ex.status == "approved" then (.error 400, db)
      else
        let upd := fun (r : BylawRow) =>
          if r.id == bylaw_id then
            { r with status := "approved", updated_at := now,
                     updated_by := cu.id }
          else r
        (.ok (upd ex), { db with bylaws := db.bylaws.map upd })

/-- `delete_bylaw` (admin): 404 if unresolved, otherwise removes the row. -/
def delete_bylaw (db : DB) (bylaw_id : String) (cu : Identity) : Res Unit :=
  if !(require_admin cu.role) then (.error 403, db)
  else if (db.bylaws.filter (fun r => r.id == bylaw_id)).isEmpty then
    (.error 404, db)
  else
    let kept := db.bylaws.filter (fun r => !(r.id == bylaw_id))
    (.ok (), { db with bylaws := kept })

/-! ## Suggestion routes (`app/routers/suggestions.py`) -/

/-- `create_suggestion` (public): 400 when neither target identifier is
truthy; resolves a supplied policy human code (404 when absent) and checks
a supplied bylaw surrogate key (404 when absent); inserts the row with the
resolved foreign keys and the caller-supplied status. -/
def create_suggestion (db : DB) (s : SuggestionCreate) (now : Nat) :
    Res SuggestionRow :=
  if !(truthyS s.policy_id) && !(truthyS s.bylaw_id) then (.error 400, db)
  else
    let pres : Except Nat (Option String) :=
      if truthyS s.policy_id then
        match db.policies.filter
            (fun r => r.policy_id == s.policy_id.getD "") with
        | [] => .error 404
        | r :: _ => .ok (some r.id)
      else .ok none
    match pres with
    | .error e => (.error e, db)
    | .ok policy_uuid =>
      let bres : Except Nat (Option String) :=
        if truthyS s.bylaw_id then
          match db.bylaws.filter (fun r => r.id == s.bylaw_id.getD "") with
          | [] => .error 404
          | r :: _ => .ok (some r.id)
        else .ok none
      match bres with
      | .error e => (.error e, db)
      | .ok bylaw_uuid =>
        let row : SuggestionRow :=
          { id := freshId db, policy_id := policy_uuid,
            bylaw_id := bylaw_uuid, suggestion := s.suggestion,
            status := s.status, created_at := now, updated_at := now }
        (.ok row, { db with suggestions := db.suggestions ++ [row],
                            next_id := db.next_id + 1 })

/-- `delete_suggestion` (admin or policy_working_group): 404 if absent,
otherwise removes the row. -/
def delete_suggestion (db : DB) (suggestion_id : String) (cu : Identity) :
    Res Unit :=
  if !(require_suggestion_manager cu.role) then (.error 403, db)
  else if (db.suggestions.filter
      (fun r => r.id == suggestion_id)).isEmpty then (.error 404, db)
  else
    let kept := db.suggestions.filter (fun r => !(r.id == suggestion_id))
    (.ok (), { db with suggestions := kept })

/-! ## Login (`app/routers/auth.py`) -/

/-- The identity the external auth provider returns for valid
credentials. -/
structure AuthUser where
  id : String
  email : String
deriving Repr, DecidableEq

/-- `login`, from the point where the identity provider has verified the
credentials and issued `access_token`: looks the account up in the users
table by id, then by email (repairing the stored id on a match); when no
row exists, lazily inserts one with role `"public"` and denies with 403;
when the resolved role is not `"admin"`/`"policy_working_group"`, denies
with 403; otherwise returns the token and role. -/
def login (db : DB) (u : AuthUser) (access_token : String) :
    Res (String × String) :=
  match db.users.filter (fun w => w.id == u.id) with
  | w :: _ =>
    if w.role == "admin" || w.role == "policy_working_group" then
      (.ok (access_token, w.role), db)
    else (.error 403, db)
  | [] =>
    match db.users.filter (fun w => w.email == u.email) with
    | _ :: _ =>
      let db1 : DB := { db with users := db.users.map (fun w =>
        if w.email == u.email then { w with id := u.id } else w) }
      match (db1.users.filter (fun w => w.id == u.id)).head? with
      | some w =>
        if w.role == "admin" || w.role == "policy_working_group" then
          (.ok (access_token, w.role), db1)
        else (.error 403, db1)
      | none =>
        (.error 403, { db1 with users := db1.users ++
          [{ id := u.id, email := u.email, role := "public", name := none }] })
    | [] =>
      (.error 403, { db with users := db.users ++
        [{ id := u.id, email := u.email, role := "public", name := none }] })

/-! ## The operation algebra (for the temporal claim) -/

/-- One inbound request of any of the mutating handlers. -/
inductive Op where
  | createPolicy (p : PolicyCreate) (cu : Identity) (now : Nat)
  | updatePolicy (pid : String) (u : PolicyUpdate) (cu : Identity) (now : Nat)
  | approvePolicy (pid : String) (cu : Identity) (now : Nat)
  | deletePolicy (pid : String) (cu : Identity)
  | createBylaw (b : BylawCreate) (cu : Identity) (now : Nat)
  | updateBylaw (bid : String) (u : BylawUpdate) (cu : Identity) (now : Nat)
  | approveBylaw (bid : String) (cu : Identity) (now : Nat)
  | deleteBylaw (bid : String) (cu : Identity)
  | createSuggestion (s : SuggestionCreate) (now : Nat)
  | deleteSuggestion (sid : String) (cu : Identity)
  | submitReview (pid rs : String) (cu? : Option Identity) (now : Nat)
  | resetReviews (cu : Identity)
  | loginOp (u : AuthUser) (tok : String)
deriving Repr

/-- The store after one request (the handler's second component). -/
def step (db : DB) : Op → DB
  | .createPolicy p cu now => (create_policy db p cu now).2
  | .updatePolicy pid u cu now => (update_policy db pid u cu now).2
  | .approvePolicy pid cu now => (approve_policy db pid cu now).2
  | .deletePolicy pid cu => (delete_policy db pid cu).2
  | .createBylaw b cu now => (create_bylaw db b cu now).2
  | .updateBylaw bid u cu now => (update_bylaw db bid u cu now).2
  | .approveBylaw bid cu now => (approve_bylaw db bid cu now).2
  | .deleteBylaw bid cu => (delete_bylaw db bid cu).2
  | .createSuggestion s now => (create_suggestion db s now).2
  | .deleteSuggestion sid cu => (delete_suggestion db sid cu).2
  | .submitReview pid rs cu? now => (submit_policy_review db pid rs cu? now).2
  | .resetReviews cu => (reset_all_policy_reviews db cu).2
  | .loginOp u tok => (login db u tok).2

/-- Whether the request is one of the two explicit approve operations. -/
def isApproveOp : Op → Bool
  | .approvePolicy _ _ _ => true
  | .approveBylaw _ _ _ => true
  | _ => false

/-! ## Concrete fixtures for the evaluation theorems -/

/-- An admin identity. -/
def adminI : Identity := ⟨some "u-admin", some "admin@x.com", "admin"⟩

/-- A public identity carrying no email. -/
def pubI : Identity := ⟨some "u-pub", none, "public"⟩

/-- An approved policy row. -/
def p1 : PolicyRow :=
  ⟨"10", "1.1.1", "Budget Policy", "1", "All travel costs", "approved",
   0, 0, some "u-admin", some "u-admin"⟩

/-- A draft bylaw row. -/
def b1 : BylawRow :=
  ⟨"20", 3, "Meetings", "Quorum is five", "draft", 0, 0,
   some "u-admin", some "u-admin"⟩

/-- A store with one approved policy, one draft bylaw and an admin user. -/
def dbP : DB := ⟨[p1], [], [b1], [], [], [⟨"u-admin", "admin@x.com", "admin", none⟩], 100⟩

/-! ## C4: creation forces draft -/

/-- C4: every policy/bylaw creation persists status `"draft"` regardless of
the caller-supplied status value, stamps the actor as both creator and
updater, sets `created_at = updated_at = now`, and fails with 400 when the
human identifier (policy code / bylaw number) already exists. -/
theorem c4_create_forces_draft (db : DB) (p : PolicyCreate) (b : BylawCreate)
    (cu : Identity) (now : Nat)
    (hrole : require_suggestion_manager cu.role = true) :
    (∀ r db2, create_policy db p cu now = (.ok r, db2) →
       r.status = "draft" ∧ r.created_by = cu.id ∧ r.updated_by = cu.id
       ∧ r.created_at = now ∧ r.updated_at = now
       ∧ db2.policies = db.policies ++ [r])
    ∧ (db.policies.filter (fun x => x.policy_id == p.policy_id) ≠ [] →
       create_policy db p cu now = (.error 400, db))
    ∧ (∀ r db2, create_bylaw db b cu now = (.ok r, db2) →
       r.status = "draft" ∧ r.created_by = cu.id ∧ r.updated_by = cu.id
       ∧ r.created_at = now ∧ r.updated_at = now
       ∧ db2.bylaws = db.bylaws ++ [r])
    ∧ (db.bylaws.filter (fun x => x.number == b.bylaw_number) ≠ [] →
       create_bylaw db b cu now = (.error 400, db)) := by
  refine ⟨?_, ?_, ?_, ?_⟩
  · intro r db2 h
    simp only [create_policy, hrole, Bool.not_true, Bool.false_eq_true,
      if_false] at h
    split at h
    · exact absurd h (by simp)
    · simp only [Prod.mk.injEq, Except.ok.injEq] at h
      obtain ⟨hr, hdb⟩ := h
      subst hr; subst hdb
      simp
  · intro hne
    simp only [create_policy, hrole, Bool.not_true, Bool.false_eq_true,
      if_false]
    have : (db.policies.filter
        (fun x => x.policy_id == p.policy_id)).isEmpty = false := by
      cases hfl : db.policies.filter (fun x => x.policy_id == p.policy_id) with
      | nil => exact absurd hfl hne
      | cons a l => simp [List.isEmpty]
    simp [this]
  · intro r db2 h
    simp only [create_bylaw, hrole, Bool.not_true, Bool.false_eq_true,
      if_false] at h
    split at h
    · exact absurd h (by simp)
    · simp only [Prod.mk.injEq, Except.ok.injEq] at h
      obtain ⟨hr, hdb⟩ := h
      subst hr; subst hdb
      simp
  · intro hne
    simp only [create_bylaw, hrole, Bool.not_true, Bool.false_eq_true,
      if_false]
    have : (db.bylaws.filter
        (fun x => x.number == b.bylaw_number)).isEmpty = false := by
      cases hfl : db.bylaws.filter (fun x => x.number == b.bylaw_number) with
      | nil => exact absurd hfl hne
      | cons a l => simp [List.isEmpty]
    simp [this]

/-- C4 witness: creating policy code "9.9.9" with caller-supplied status
"approved" in the fixture store persists a draft row stamped with the
actor and `now` on both timestamps. -/
theorem c4_witness :
    (create_policy dbP ⟨"9.9.9", "New", "9", "text", "approved"⟩ adminI 4).1
      = .ok ⟨"100", "9.9.9", "New", "9", "text", "draft", 4, 4,
             some "u-admin", some "u-admin"⟩ := by
  have h := c4_create_forces_draft dbP ⟨"9.9.9", "New", "9", "text", "approved"⟩
    ⟨7, "T", "c", "approved"⟩ adminI 4 (by decide)
  have h2 := h.1 ⟨"100", "9.9.9", "New", "9", "text", "draft", 4, 4,
    some "u-admin", some "u-admin"⟩
    ((create_policy dbP ⟨"9.9.9", "New", "9", "text", "approved"⟩ adminI 4).2)
    (by rfl)
  rw [show (create_policy dbP ⟨"9.9.9", "New", "9", "text", "approved"⟩
    adminI 4) = ((create_policy dbP ⟨"9.9.9", "New", "9", "text", "approved"⟩
    adminI 4).1, (create_policy dbP ⟨"9.9.9", "New", "9", "text", "approved"⟩
    adminI 4).2) from rfl]
  rfl

/-! ## C9: the public single-policy fetch hides drafts -/

/-- C9: when a policy with the requested human code exists with status
`"draft"` (codes being unique), the public fetch by code fails with 404,
exactly as if the policy did not exist. -/
theorem c9_draft_policy_hidden (db : DB) (pid : String) (r : PolicyRow)
    (hr : r ∈ db.policies) (hpid : r.policy_id = pid)
    (hdraft : r.status = "draft")
    (huniq : ∀ a ∈ db.policies, ∀ b ∈ db.policies,
      a.policy_id = b.policy_id → a = b) :
    get_approved_policy_by_id db pid = .error 404 := by
  have hfl : db.policies.filter
      (fun s => s.policy_id == pid && s.status == "approved") = [] := by
    rw [List.filter_eq_nil_iff]
    intro s hs hmatch
    simp only [Bool.and_eq_true, beq_iff_eq] at hmatch
    have hsr : s = r := huniq s hs r hr (hmatch.1.trans hpid.symm)
    rw [hsr, hdraft] at hmatch
    exact absurd hmatch.2 (by simp)
  simp [get_approved_policy_by_id, hfl]

/-- C9 witness: the fixture policy, demoted to draft, is not served by the
public fetch. -/
theorem c9_witness :
    get_approved_policy_by_id
      { dbP with policies := [{ p1 with status := "draft" }] } "1.1.1"
      = .error 404 := by
  exact c9_draft_policy_hidden _ "1.1.1" { p1 with status := "draft" }
    (by simp) (by rfl) (by rfl)
    (by intro a ha bq hb hab
        simp only [List.mem_singleton] at ha hb
        rw [ha, hb])

/-! ## C5: the approve operation -/

/-- C5: approving a policy or bylaw fails with 404 when the identifier does
not resolve; fails with 400 when the current status is already
`"approved"`, leaving the store unchanged; and otherwise succeeds, setting
status to `"approved"` and stamping `updated_by`/`updated_at` while leaving
every other field (name/section/content, title/content) unchanged. -/
theorem c5_approve_transitions (db : DB) (pid bid : String) (cu : Identity)
    (now : Nat) (hrole : require_admin cu.role = true) :
    (db.policies.filter (fun r => r.policy_id == pid) = [] →
       approve_policy db pid cu now = (.error 404, db))
    ∧ (∀ ex rest, db.policies.filter (fun r => r.policy_id == pid) = ex :: rest →
       ex.status = "approved" → approve_policy db pid cu now = (.error 400, db))
    ∧ (∀ ex rest, db.policies.filter (fun r => r.policy_id == pid) = ex :: rest →
       ex.status ≠ "approved" →
       approve_policy db pid cu now =
         (.ok { ex with status := "approved", updated_at := now,
                        updated_by := cu.id },
          { db with policies := db.policies.map (fun r =>
              if r.policy_id == pid then
                { r with status := "approved", updated_at := now,
                         updated_by := cu.id }
              else r) }))
    ∧ (db.bylaws.filter (fun r => r.id == bid) = [] →
       approve_bylaw db bid cu now = (.error 404, db))
    ∧ (∀ ex rest, db.bylaws.filter (fun r => r.id == bid) = ex :: rest →
       ex.status = "approved" → approve_bylaw db bid cu now = (.error 400, db))
    ∧ (∀ ex rest, db.bylaws.filter (fun r => r.id == bid) = ex :: rest →
       ex.status ≠ "approved" →
       approve_bylaw db bid cu now =
         (.ok { ex with status := "approved", updated_at := now,
                        updated_by := cu.id },
          { db with bylaws := db.bylaws.map (fun r =>
              if r.id == bid then
                { r with status := "approved", updated_at := now,
                         updated_by := cu.id }
              else r) })) := by
  refine ⟨?_, ?_, ?_, ?_, ?_, ?_⟩
  · intro hfl
    simp [approve_policy, hrole, hfl]
  · intro ex rest hfl hap
    simp [approve_policy, hrole, hfl, hap]
  · intro ex rest hfl hap
    have hmem : ex ∈ List.filter (fun r => r.policy_id == pid) db.policies := by
      rw [hfl]; exact List.mem_cons_self _ _
    have hex : (ex.policy_id == pid) = true := (List.mem_filter.mp hmem).2
    simp [approve_policy, hrole, hfl, hap, hex]
  · intro hfl
    simp [approve_bylaw, hrole, hfl]
  · intro ex rest hfl hap
    simp [approve_bylaw, hrole, hfl, hap]
  · intro ex rest hfl hap
    have hmem : ex ∈ List.filter (fun r => r.id == bid) db.bylaws := by
      rw [hfl]; exact List.mem_cons_self _ _
    have hex : (ex.id == bid) = true := (List.mem_filter.mp hmem).2
    simp [approve_bylaw, hrole, hfl, hap, hex]

/-- C5 witness: approving the already-approved fixture policy fails with
400 and leaves the store unchanged; approving the draft fixture bylaw
succeeds and sets its status to `"approved"`. -/
theorem c5_witness :
    approve_policy dbP "1.1.1" adminI 9 = (.error 400, dbP)
    ∧ (approve_bylaw dbP "20" adminI 9).1 =
        .ok { b1 with status := "approved", updated_at := 9,
                      updated_by := some "u-admin" } := by
  have h := c5_approve_transitions dbP "1.1.1" "20" adminI 9 (by decide)
  refine ⟨h.2.1 p1 [] (by rfl) (by rfl), ?_⟩
  have h2 := h.2.2.2.2.2 b1 [] (by rfl) (by decide)
  rw [h2]
  rfl

/-! ## C2: suggestion target validation (XOR fails on the code) -/

/-- C2 counterexample: a creation request supplying BOTH a policy code and
a bylaw id (both resolving, in the fixture store) is not rejected — it
succeeds and the stored row references both targets at once. -/
theorem c2_counterexample :
    (create_suggestion dbP ⟨some "1.1.1", some "20", "merge these", "pending"⟩ 7).1
      = .ok ⟨"100", some "10", some "20", "merge these", "pending", 7, 7⟩
    ∧ ((create_suggestion dbP
        ⟨some "1.1.1", some "20", "merge these", "pending"⟩ 7).2.suggestions.map
          (fun r => (r.policy_id, r.bylaw_id))) = [(some "10", some "20")] := by
  exact ⟨rfl, rfl⟩

/-- C2 amended: creation fails with 400 only when neither target is
supplied; a successful creation stores a row whose policy/bylaw references
are set exactly for the supplied (and resolved) targets — at least one,
but both when both were supplied. -/
theorem c2_suggestion_targets (db : DB) (s : SuggestionCreate) (now : Nat) :
    (truthyS s.policy_id = false → truthyS s.bylaw_id = false →
       create_suggestion db s now = (.error 400, db))
    ∧ (∀ r db2, create_suggestion db s now = (.ok r, db2) →
       (r.policy_id.isSome || r.bylaw_id.isSome) = true
       ∧ r.policy_id.isSome = truthyS s.policy_id
       ∧ r.bylaw_id.isSome = truthyS s.bylaw_id
       ∧ db2.suggestions = db.suggestions ++ [r]) := by
  constructor
  · intro hp hb
    simp [create_suggestion, hp, hb]
  · intro r db2 h
    simp only [create_suggestion] at h
    cases hp : truthyS s.policy_id <;> rw [hp] at h <;>
      cases hb : truthyS s.bylaw_id <;> rw [hb] at h
    · simp at h
    · cases hbl : db.bylaws.filter (fun x => x.id == s.bylaw_id.getD "") with
      | nil => rw [hbl] at h; simp at h
      | cons c tl =>
        rw [hbl] at h
        simp only [Bool.not_false, Bool.not_true, Bool.true_and,
          Bool.and_false, Bool.false_eq_true, if_false, if_true,
          Bool.true_eq_false, Prod.mk.injEq, Except.ok.injEq] at h
        obtain ⟨hr, hdb⟩ := h
        subst hr; subst hdb
        simp
    · cases hpl : db.policies.filter
          (fun x => x.policy_id == s.policy_id.getD "") with
      | nil => rw [hpl] at h; simp at h
      | cons c tl =>
        rw [hpl] at h
        simp only [Bool.not_false, Bool.not_true, Bool.false_and,
          Bool.and_false, Bool.and_true, Bool.false_eq_true, if_false,
          if_true, Bool.true_eq_false, Prod.mk.injEq, Except.ok.injEq] at h
        obtain ⟨hr, hdb⟩ := h
        subst hr; subst hdb
        simp
    · cases hpl : db.policies.filter
          (fun x => x.policy_id == s.policy_id.getD "") with
      | nil => rw [hpl] at h; simp at h
      | cons c tl =>
        rw [hpl] at h
        cases hbl : db.bylaws.filter (fun x => x.id == s.bylaw_id.getD "") with
        | nil => rw [hbl] at h; simp at h
        | cons d tm =>
          rw [hbl] at h
          simp only [Bool.not_true, Bool.and_self, Bool.false_eq_true,
            if_false, if_true, Bool.true_eq_false, Prod.mk.injEq,
            Except.ok.injEq] at h
          obtain ⟨hr, hdb⟩ := h
          subst hr; subst hdb
          simp

/-- C2 amended witness: a request supplying only the fixture policy code
succeeds with the policy reference set and no bylaw reference. -/
theorem c2_witness :
    ((create_suggestion dbP ⟨some "1.1.1", none, "fix the wording", "pending"⟩ 2).2.suggestions.map
      (fun r => (r.policy_id.isSome, r.bylaw_id.isSome))) = [(true, false)] := by
  have h := (c2_suggestion_targets dbP
    ⟨some "1.1.1", none, "fix the wording", "pending"⟩ 2).2
    ⟨"100", some "10", none, "fix the wording", "pending", 2, 2⟩
    ((create_suggestion dbP ⟨some "1.1.1", none, "fix the wording", "pending"⟩ 2).2)
    (by rfl)
  rw [h.2.2.2]
  rfl

/-! ## C7: review submission failure modes -/

/-- C7 counterexample: an identity lacking a resolvable email (no email in
the token, no users-table row) makes `submit_policy_review` fail with 400,
not with 401 as the claim states. -/
theorem c7_counterexample :
    submit_policy_review dbP "1.1.1" "confirm" (some pubI) 3 = (.error 400, dbP)
    ∧ (400 : Nat) ≠ 401 := ⟨rfl, by decide⟩

/-- C7 amended: review submission fails with 401 when no identity is
supplied, with 400 (not 401) when the identity lacks a resolvable email
after consulting the users table, and with 404 when the policy code does
not resolve; in every failure case the store — in particular the
`policy_reviews` table — is unchanged. -/
theorem c7_review_failure_modes (db : DB) (pid rs : String)
    (cu : Identity) (email : String) (now : Nat) :
    (submit_policy_review db pid rs none now = (.error 401, db))
    ∧ (resolve_review_email db cu = none →
        submit_policy_review db pid rs (some cu) now = (.error 400, db))
    ∧ (resolve_review_email db cu = some email →
        (db.policies.filter (fun r => r.policy_id == pid)).isEmpty = true →
        submit_policy_review db pid rs (some cu) now = (.error 404, db)) := by
  refine ⟨rfl, ?_, ?_⟩
  · intro hm
    simp [submit_policy_review, hm]
  · intro hm hp
    simp [submit_policy_review, hm, hp]

/-- C7 amended witness: submitting a review for an unknown policy code with
a fully resolvable admin identity fails with 404 and writes nothing. -/
theorem c7_witness :
    submit_policy_review dbP "9.9.9" "confirm" (some adminI) 3
      = (.error 404, dbP) := by
  exact (c7_review_failure_modes dbP "9.9.9" "confirm" adminI
    "admin@x.com" 3).2.2 (by rfl) (by rfl)

/-! ## C8: the search filter of the public approved list -/

/-- C8 (evidence of the code bug): the fixture store holds one approved
policy named "Budget Policy"; searching the public approved list for
"budget" returns nothing, while the restricted list endpoint (which reads
the correct converted keys) returns the policy for the same search — the
approved variant matches the search against the keys `"name"`/`"content"`,
which the converted dicts do not carry, so only `policy_id` is ever
matched, contradicting the endpoint's own documentation. -/
theorem c8_approved_search_reads_wrong_keys :
    get_approved_policies dbP none (some "budget") = .ok []
    ∧ get_policies dbP none none (some "budget") none 50 0 adminI
        = .ok [convert_policy_from_db p1]
    ∧ p1.status = "approved"
    ∧ containsCI p1.name "budget" = true := ⟨rfl, rfl, rfl, rfl⟩

/-! ## C10: login rejects public accounts -/

/-- C10: after credential verification, login denies with 403 both when no
users-table row matches the account by id or email (a row with role
`"public"` is then lazily inserted) and when the matched row's role is
neither `"admin"` nor `"policy_working_group"`; and every successful login
returns one of those two roles. -/
theorem c10_login_role_gate (db : DB) (u : AuthUser) (tok : String) :
    (db.users.filter (fun w => w.id == u.id) = [] →
     db.users.filter (fun w => w.email == u.email) = [] →
     login db u tok = (.error 403,
       { db with users := db.users ++
          [{ id := u.id, email := u.email, role := "public", name := none }] }))
    ∧ (∀ w rest, db.users.filter (fun x => x.id == u.id) = w :: rest →
       (w.role == "admin" || w.role == "policy_working_group") = false →
       login db u tok = (.error 403, db))
    ∧ (∀ t role db2, login db u tok = (.ok (t, role), db2) →
       role = "admin" ∨ role = "policy_working_group") := by
  refine ⟨?_, ?_, ?_⟩
  · intro hid hem
    simp [login, hid, hem]
  · intro w rest hfl hrole
    simp [login, hfl, hrole]
  · intro t role db2 h
    simp only [login] at h
    cases hid : db.users.filter (fun w => w.id == u.id) with
    | cons w rest =>
      rw [hid] at h
      by_cases hw : (w.role == "admin" || w.role == "policy_working_group") = true
      · simp only [hw, if_true, Prod.mk.injEq, Except.ok.injEq] at h
        obtain ⟨⟨ht, hr⟩, hdb⟩ := h
        rw [Bool.or_eq_true] at hw
        rcases hw with hx | hx
        · exact Or.inl (hr ▸ (beq_iff_eq.mp hx))
        · exact Or.inr (hr ▸ (beq_iff_eq.mp hx))
      · rw [Bool.not_eq_true] at hw
        simp [hw] at h
    | nil =>
      rw [hid] at h
      cases hem : db.users.filter (fun w => w.email == u.email) with
      | nil =>
        rw [hem] at h
        simp at h
      | cons v vs =>
        rw [hem] at h
        set db1 : DB := { db with users := db.users.map (fun w =>
          if w.email == u.email then { w with id := u.id } else w) } with hdb1
        cases hh : (db1.users.filter (fun w => w.id == u.id)).head? with
        | none =>
          rw [hh] at h
          simp at h
        | some w2 =>
          rw [hh] at h
          by_cases hw : (w2.role == "admin" || w2.role == "policy_working_group") = true
          · simp only [hw, if_true, Prod.mk.injEq, Except.ok.injEq] at h
            obtain ⟨⟨ht, hr⟩, hdb⟩ := h
            rw [Bool.or_eq_true] at hw
            rcases hw with hx | hx
            · exact Or.inl (hr ▸ (beq_iff_eq.mp hx))
            · exact Or.inr (hr ▸ (beq_iff_eq.mp hx))
          · rw [Bool.not_eq_true] at hw
            simp [hw] at h

/-- C10 witness: logging in with valid credentials of an account unknown to
the users table is denied with 403 and lazily creates a `"public"` row. -/
theorem c10_witness :
    login dbP ⟨"u-x", "new@x.com"⟩ "tok" = (.error 403,
      { dbP with users := dbP.users ++
          [{ id := "u-x", email := "new@x.com", role := "public",
             name := none }] }) := by
  exact (c10_login_role_gate dbP ⟨"u-x", "new@x.com"⟩ "tok").1 rfl rfl

/-! ## C6: the review upsert keeps one row per (policy, email) pair -/

/-- `filter` commutes with a `map` that preserves the filter predicate
(the upsert's update rewrites only non-key fields). -/
theorem filter_map_pres {α : Type} (f : α → α) (p : α → Bool)
    (h : ∀ a, p (f a) = p a) (l : List α) :
    (l.map f).filter p = (l.filter p).map f := by
  induction l with
  | nil => rfl
  | cons a t ih =>
    simp only [List.map_cons, List.filter_cons, h a]
    cases hp : p a <;> simp [hp, ih]

/-- C6: given at most one existing review row for the (policy code, email)
pair, a successful submission leaves exactly one row for that pair,
carrying the submitted status and `updated_at = now`; a repeat submission
rewrites the existing row in place — the table's total row count is
unchanged and `created_at` is preserved — while a first submission appends
a row with `created_at = now`. -/
theorem c6_review_upsert (db : DB) (pid st email : String)
    (cu? : Option Identity) (cu : Identity) (now : Nat)
    (hcu : cu? = some cu)
    (hemail : resolve_review_email db cu = some email)
    (hpol : (db.policies.filter (fun r => r.policy_id == pid)).isEmpty = false)
    (hone : (pairRows db pid email).length ≤ 1) :
    (submit_policy_review db pid st cu? now).1 = .ok ()
    ∧ (pairRows (submit_policy_review db pid st cu? now).2 pid email).length = 1
    ∧ (∀ r ∈ pairRows (submit_policy_review db pid st cu? now).2 pid email,
        r.review_status = st ∧ r.updated_at = now)
    ∧ (∀ r0, pairRows db pid email = [r0] →
        (submit_policy_review db pid st cu? now).2.policy_reviews.length
          = db.policy_reviews.length
        ∧ pairRows (submit_policy_review db pid st cu? now).2 pid email
            = [{ r0 with review_status := st, updated_at := now }])
    ∧ (pairRows db pid email = [] →
        (submit_policy_review db pid st cu? now).2.policy_reviews
          = db.policy_reviews ++
            [{ policy_id := pid, user_email := email, review_status := st,
               created_at := now, updated_at := now }]) := by
  subst hcu
  cases hpr : pairRows db pid email with
  | nil =>
    have hres : submit_policy_review db pid st (some cu) now =
        (.ok (), { db with policy_reviews := db.policy_reviews ++
          [{ policy_id := pid, user_email := email, review_status := st,
             created_at := now, updated_at := now }] }) := by
      simp [submit_policy_review, hemail, hpol, hpr]
    rw [hres]
    refine ⟨rfl, ?_, ?_, ?_, fun _ => rfl⟩
    · simp only [pairRows, List.filter_append]
      have : pairRows db pid email =
          db.policy_reviews.filter
            (fun r => r.policy_id == pid && r.user_email == email) := rfl
      rw [← this, hpr]
      simp
    · intro r hrmem
      simp only [pairRows, List.filter_append] at hrmem
      have heq : List.filter
          (fun r => r.policy_id == pid && r.user_email == email)
          db.policy_reviews = [] := hpr
      rw [heq] at hrmem
      simp at hrmem
      subst hrmem
      exact ⟨rfl, rfl⟩
    · intro r0 habs
      exact absurd habs (by simp)
  | cons r0 tl =>
    cases tl with
    | cons r1 tm =>
      rw [hpr] at hone
      simp at hone
    | nil =>
      have hp0 : (r0.policy_id == pid && r0.user_email == email) = true := by
        have hmem : r0 ∈ db.policy_reviews.filter
            (fun r => r.policy_id == pid && r.user_email == email) := by
          have : pairRows db pid email =
              db.policy_reviews.filter
                (fun r => r.policy_id == pid && r.user_email == email) := rfl
          rw [← this, hpr]
          exact List.mem_cons_self _ _
        exact (List.mem_filter.mp hmem).2
      have hres : submit_policy_review db pid st (some cu) now =
          (.ok (), { db with policy_reviews := db.policy_reviews.map (fun r =>
            if r.policy_id == pid && r.user_email == email then
              { r with review_status := st, updated_at := now }
            else r) }) := by
        simp [submit_policy_review, hemail, hpol, hpr]
      rw [hres]
      have hcomm : (db.policy_reviews.map (fun r =>
          if r.policy_id == pid && r.user_email == email then
            { r with review_status := st, updated_at := now }
          else r)).filter
            (fun r => r.policy_id == pid && r.user_email == email)
          = (db.policy_reviews.filter
              (fun r => r.policy_id == pid && r.user_email == email)).map
            (fun r => if r.policy_id == pid && r.user_email == email then
              { r with review_status := st, updated_at := now }
            else r) := by
        apply filter_map_pres
        intro a
        by_cases ha : (a.policy_id == pid && a.user_email == email) = true
        · simp [ha]
        · rw [Bool.not_eq_true] at ha
          simp [ha]
      have hpairs2 : pairRows
          { db with policy_reviews := db.policy_reviews.map (fun r =>
            if r.policy_id == pid && r.user_email == email then
              { r with review_status := st, updated_at := now }
            else r) } pid email
          = [{ r0 with review_status := st, updated_at := now }] := by
        show (db.policy_reviews.map _).filter _ = _
        rw [hcomm]
        have heq : List.filter
            (fun r => r.policy_id == pid && r.user_email == email)
            db.policy_reviews = [r0] := hpr
        rw [heq]
        simp only [List.map_cons, List.map_nil, hp0]
        simp
      refine ⟨rfl, ?_, ?_, ?_, ?_⟩
      · rw [hpairs2]; rfl
      · intro r hrmem
        rw [hpairs2] at hrmem
        simp at hrmem
        rw [hrmem]
        exact ⟨rfl, rfl⟩
      · intro rx hrx
        simp only [List.cons.injEq, and_true] at hrx
        subst hrx
        exact ⟨by simp, hpairs2⟩
      · intro habs
        exact absurd habs (by simp)

/-- C6 witness: a second submission by the same email on the fixture
policy leaves exactly one row for the pair, carrying the latest status. -/
theorem c6_witness :
    (pairRows (submit_policy_review
      { dbP with policy_reviews :=
          [{ policy_id := "1.1.1", user_email := "admin@x.com",
             review_status := "confirm", created_at := 1, updated_at := 1 }] }
      "1.1.1" "needs_work" (some adminI) 2).2 "1.1.1" "admin@x.com").length
      = 1 := by
  exact (c6_review_upsert
    { dbP with policy_reviews :=
        [{ policy_id := "1.1.1", user_email := "admin@x.com",
           review_status := "confirm", created_at := 1, updated_at := 1 }] }
    "1.1.1" "needs_work" "admin@x.com" (some adminI) adminI 2 rfl rfl rfl
    (by decide)).2.1

/-! ## C1: version snapshotting on policy update -/

/-- C1: an update of an existing policy appends exactly one PolicyVersion
row iff the computed change-set is non-empty (some supplied field differs
from the current row, or the forced draft status differs from the current
status), and appends none otherwise; the appended snapshot carries
`version_number` = prior maximum for this policy's surrogate key + 1
(so 1 when no versions exist) and the pre-update row's name, section,
content and status. -/
theorem c1_update_policy_versioning (db : DB) (pid : String)
    (u : PolicyUpdate) (cu : Identity) (now : Nat)
    (ex : PolicyRow) (rest : List PolicyRow)
    (hrole : require_suggestion_manager cu.role = true)
    (hfl : db.policies.filter (fun r => r.policy_id == pid) = ex :: rest) :
    (policy_has_changes ex u = true →
      (update_policy db pid u cu now).2.policy_versions
        = db.policy_versions ++ [versionSnapshot db ex cu now])
    ∧ (policy_has_changes ex u = false →
      (update_policy db pid u cu now).2.policy_versions = db.policy_versions)
    ∧ (versionSnapshot db ex cu now).version_number
        = maxVersionNumber (db.policy_versions.filter
            (fun v => v.policy_id == ex.id)) + 1
    ∧ (db.policy_versions.filter (fun v => v.policy_id == ex.id) = [] →
        (versionSnapshot db ex cu now).version_number = 1)
    ∧ (versionSnapshot db ex cu now).name = ex.name
    ∧ (versionSnapshot db ex cu now).«section» = ex.«section»
    ∧ (versionSnapshot db ex cu now).content = ex.content
    ∧ (versionSnapshot db ex cu now).status = ex.status
    ∧ (versionSnapshot db ex cu now).policy_id = ex.id := by
  refine ⟨?_, ?_, ?_, ?_, rfl, rfl, rfl, rfl, rfl⟩
  · intro hc
    simp [update_policy, hrole, hfl, hc]
  · intro hc
    simp [update_policy, hrole, hfl, hc]
  · show nextVersion db ex.id = _
    unfold nextVersion
    cases hv : db.policy_versions.filter (fun v => v.policy_id == ex.id) with
    | nil => simp [hv, maxVersionNumber]
    | cons a l => simp [hv]
  · intro h0
    show nextVersion db ex.id = 1
    simp [nextVersion, h0]

/-- C1 witness: updating the approved fixture policy with an empty body
still has a non-empty change-set (the forced draft status differs), so
exactly one snapshot of the approved pre-update row is appended. -/
theorem c1_witness :
    (update_policy dbP "1.1.1" ⟨none, none, none, none⟩ adminI 5).2.policy_versions
      = dbP.policy_versions ++ [versionSnapshot dbP p1 adminI 5] := by
  exact (c1_update_policy_versioning dbP "1.1.1" ⟨none, none, none, none⟩
    adminI 5 p1 [] (by decide) rfl).1 (by decide)

/-! ## C3: update forces draft; only approve grants approved -/

/-- Bylaw handlers never touch the `policies` table. -/
theorem create_bylaw_keeps_policies (db : DB) (b : BylawCreate)
    (cu : Identity) (now : Nat) :
    (create_bylaw db b cu now).2.policies = db.policies := by
  simp only [create_bylaw]
  repeat' split
  all_goals rfl

/-- `update_bylaw` never touches the `policies` table. -/
theorem update_bylaw_keeps_policies (db : DB) (bid : String) (u : BylawUpdate)
    (cu : Identity) (now : Nat) :
    (update_bylaw db bid u cu now).2.policies = db.policies := by
  simp only [update_bylaw]
  repeat' split
  all_goals rfl

/-- `delete_bylaw` never touches the `policies` table. -/
theorem delete_bylaw_keeps_policies (db : DB) (bid : String) (cu : Identity) :
    (delete_bylaw db bid cu).2.policies = db.policies := by
  simp only [delete_bylaw]
  repeat' split
  all_goals rfl

/-- Policy handlers never touch the `bylaws` table. -/
theorem create_policy_keeps_bylaws (db : DB) (p : PolicyCreate)
    (cu : Identity) (now : Nat) :
    (create_policy db p cu now).2.bylaws = db.bylaws := by
  simp only [create_policy]
  repeat' split
  all_goals rfl

/-- `update_policy` never touches the `bylaws` table. -/
theorem update_policy_keeps_bylaws (db : DB) (pid : String) (u : PolicyUpdate)
    (cu : Identity) (now : Nat) :
    (update_policy db pid u cu now).2.bylaws = db.bylaws := by
  simp only [update_policy]
  repeat' split
  all_goals rfl

/-- `delete_policy` never touches the `bylaws` table. -/
theorem delete_policy_keeps_bylaws (db : DB) (pid : String) (cu : Identity) :
    (delete_policy db pid cu).2.bylaws = db.bylaws := by
  simp only [delete_policy]
  repeat' split
  all_goals rfl

/-- `create_suggestion` touches neither content table. -/
theorem create_suggestion_keeps_content (db : DB) (s : SuggestionCreate)
    (now : Nat) :
    (create_suggestion db s now).2.policies = db.policies
    ∧ (create_suggestion db s now).2.bylaws = db.bylaws := by
  constructor <;>
    · simp only [create_suggestion]
      repeat' split
      all_goals rfl

/-- `delete_suggestion` touches neither content table. -/
theorem delete_suggestion_keeps_content (db : DB) (sid : String)
    (cu : Identity) :
    (delete_suggestion db sid cu).2.policies = db.policies
    ∧ (delete_suggestion db sid cu).2.bylaws = db.bylaws := by
  constructor <;>
    · simp only [delete_suggestion]
      repeat' split
      all_goals rfl

/-- `submit_policy_review` touches neither content table. -/
theorem submit_policy_review_keeps_content (db : DB) (pid rs : String)
    (cu? : Option Identity) (now : Nat) :
    (submit_policy_review db pid rs cu? now).2.policies = db.policies
    ∧ (submit_policy_review db pid rs cu? now).2.bylaws = db.bylaws := by
  constructor <;>
    · simp only [submit_policy_review]
      repeat' split
      all_goals rfl

/-- `reset_all_policy_reviews` touches neither content table. -/
theorem reset_reviews_keeps_content (db : DB) (cu : Identity) :
    (reset_all_policy_reviews db cu).2.policies = db.policies
    ∧ (reset_all_policy_reviews db cu).2.bylaws = db.bylaws := by
  constructor <;>
    · simp only [reset_all_policy_reviews]
      repeat' split
      all_goals rfl

/-- `login` touches neither content table. -/
theorem login_keeps_content (db : DB) (u : AuthUser) (tok : String) :
    (login db u tok).2.policies = db.policies
    ∧ (login db u tok).2.bylaws = db.bylaws := by
  constructor <;>
    · simp only [login]
      repeat' split
      all_goals rfl

/-- Every policy row after `create_policy` is an old row or a draft. -/
theorem mem_create_policy_policies {q : PolicyRow} (db : DB) (p : PolicyCreate)
    (cu : Identity) (now : Nat)
    (hq : q ∈ (create_policy db p cu now).2.policies) :
    q ∈ db.policies ∨ q.status = "draft" := by
  simp only [create_policy] at hq
  split at hq
  · exact Or.inl hq
  · split at hq
    · exact Or.inl hq
    · simp only [List.mem_append, List.mem_singleton] at hq
      rcases hq with hq | hq
      · exact Or.inl hq
      · exact Or.inr (by rw [hq])

/-- Every policy row after `update_policy` is an untouched old row or a
draft. -/
theorem mem_update_policy_policies {q : PolicyRow} (db : DB) (pid : String)
    (u : PolicyUpdate) (cu : Identity) (now : Nat)
    (hq : q ∈ (update_policy db pid u cu now).2.policies) :
    q ∈ db.policies ∨ q.status = "draft" := by
  simp only [update_policy] at hq
  split at hq
  · exact Or.inl hq
  · split at hq
    · exact Or.inl hq
    · rename_i ex rest heq
      have hdb1 : (if policy_has_changes ex u then
          { db with policy_versions :=
              db.policy_versions ++ [versionSnapshot db ex cu now] }
          else db).policies = db.policies := by
        split <;> rfl
      rw [hdb1] at hq
      rcases List.mem_map.mp hq with ⟨r0, hr0, hfr⟩
      by_cases hb : (r0.policy_id == pid) = true
      · rw [if_pos hb] at hfr
        exact Or.inr (by rw [← hfr]; rfl)
      · rw [if_neg hb] at hfr
        exact Or.inl (hfr ▸ hr0)

/-- Every policy row after `delete_policy` is an old row. -/
theorem mem_delete_policy_policies {q : PolicyRow} (db : DB) (pid : String)
    (cu : Identity)
    (hq : q ∈ (delete_policy db pid cu).2.policies) : q ∈ db.policies := by
  simp only [delete_policy] at hq
  split at hq
  · exact hq
  · split at hq
    · exact hq
    · exact List.mem_of_mem_filter hq

/-- Every bylaw row after `create_bylaw` is an old row or a draft. -/
theorem mem_create_bylaw_bylaws {q : BylawRow} (db : DB) (b : BylawCreate)
    (cu : Identity) (now : Nat)
    (hq : q ∈ (create_bylaw db b cu now).2.bylaws) :
    q ∈ db.bylaws ∨ q.status = "draft" := by
  simp only [create_bylaw] at hq
  split at hq
  · exact Or.inl hq
  · split at hq
    · exact Or.inl hq
    · simp only [List.mem_append, List.mem_singleton] at hq
      rcases hq with hq | hq
      · exact Or.inl hq
      · exact Or.inr (by rw [hq])

/-- Every bylaw row after `update_bylaw` is an untouched old row or a
draft. -/
theorem mem_update_bylaw_bylaws {q : BylawRow} (db : DB) (bid : String)
    (u : BylawUpdate) (cu : Identity) (now : Nat)
    (hq : q ∈ (update_bylaw db bid u cu now).2.bylaws) :
    q ∈ db.bylaws ∨ q.status = "draft" := by
  simp only [update_bylaw] at hq
  split at hq
  · exact Or.inl hq
  · split at hq
    · exact Or.inl hq
    · rcases List.mem_map.mp hq with ⟨r0, hr0, hfr⟩
      by_cases hb : (r0.id == bid) = true
      · rw [if_pos hb] at hfr
        exact Or.inr (by rw [← hfr]; rfl)
      · rw [if_neg hb] at hfr
        exact Or.inl (hfr ▸ hr0)

/-- Every bylaw row after `delete_bylaw` is an old row. -/
theorem mem_delete_bylaw_bylaws {q : BylawRow} (db : DB) (bid : String)
    (cu : Identity)
    (hq : q ∈ (delete_bylaw db bid cu).2.bylaws) : q ∈ db.bylaws := by
  simp only [delete_bylaw] at hq
  split at hq
  · exact hq
  · split at hq
    · exact hq
    · exact List.mem_of_mem_filter hq

/-- C3: every successful policy/bylaw update stores status `"draft"` — for
the returned row and for every stored row matching the updated identifier,
whatever fields were supplied and whatever the prior status — and across
every modelled operation, a row can only be `"approved"` afterwards if it
was already approved before or the operation was one of the two explicit
approve operations. -/
theorem c3_draft_ratchet :
    (∀ db pid u cu now r db2, update_policy db pid u cu now = (.ok r, db2) →
       r.status = "draft"
       ∧ ∀ q ∈ db2.policies, q.policy_id = pid → q.status = "draft")
    ∧ (∀ db bid u cu now r db2, update_bylaw db bid u cu now = (.ok r, db2) →
       r.status = "draft"
       ∧ ∀ q ∈ db2.bylaws, q.id = bid → q.status = "draft")
    ∧ (∀ db op, isApproveOp op = false →
        (∀ q ∈ (step db op).policies, q.status = "approved" →
           ∃ p ∈ db.policies, p.id = q.id ∧ p.status = "approved")
        ∧ (∀ q ∈ (step db op).bylaws, q.status = "approved" →
           ∃ p ∈ db.bylaws, p.id = q.id ∧ p.status = "approved")) := by
  refine ⟨?_, ?_, ?_⟩
  · intro db pid u cu now r db2 h
    simp only [update_policy] at h
    split at h
    · exact absurd h (by simp)
    · split at h
      · exact absurd h (by simp)
      · rename_i ex rest heq
        simp only [Prod.mk.injEq, Except.ok.injEq] at h
        obtain ⟨hr, hdb⟩ := h
        subst hr; subst hdb
        refine ⟨rfl, ?_⟩
        intro q hq hqp
        have hdb1 : (if policy_has_changes ex u then
            { db with policy_versions :=
                db.policy_versions ++ [versionSnapshot db ex cu now] }
            else db).policies = db.policies := by
          split <;> rfl
        have hq2 : q ∈ (if policy_has_changes ex u then
            { db with policy_versions :=
                db.policy_versions ++ [versionSnapshot db ex cu now] }
            else db).policies.map (fun x =>
              if x.policy_id == pid then applyPolicyUpdate u cu now x
              else x) := hq
        rw [hdb1] at hq2
        rcases List.mem_map.mp hq2 with ⟨r0, hr0, hfr⟩
        by_cases hb : (r0.policy_id == pid) = true
        · rw [if_pos hb] at hfr
          rw [← hfr]; rfl
        · rw [if_neg hb] at hfr
          rw [← hfr] at hqp
          exact absurd (beq_iff_eq.mpr hqp) hb
  · intro db bid u cu now r db2 h
    simp only [update_bylaw] at h
    split at h
    · exact absurd h (by simp)
    · split at h
      · exact absurd h (by simp)
      · rename_i ex rest heq
        simp only [Prod.mk.injEq, Except.ok.injEq] at h
        obtain ⟨hr, hdb⟩ := h
        subst hr; subst hdb
        refine ⟨rfl, ?_⟩
        intro q hq hqp
        rcases List.mem_map.mp hq with ⟨r0, hr0, hfr⟩
        by_cases hb : (r0.id == bid) = true
        · rw [if_pos hb] at hfr
          rw [← hfr]; rfl
        · rw [if_neg hb] at hfr
          rw [← hfr] at hqp
          exact absurd (beq_iff_eq.mpr hqp) hb
  · intro db op hop
    cases op with
    | approvePolicy pid cu now => simp [isApproveOp] at hop
    | approveBylaw bid cu now => simp [isApproveOp] at hop
    | createPolicy p cu now =>
      refine ⟨?_, ?_⟩
      · intro q hq hap
        simp only [step] at hq
        rcases mem_create_policy_policies db p cu now hq with hm | hd
        · exact ⟨q, hm, rfl, hap⟩
        · rw [hd] at hap; exact absurd hap (by decide)
      · intro q hq hap
        simp only [step] at hq
        rw [create_policy_keeps_bylaws] at hq
        exact ⟨q, hq, rfl, hap⟩
    | updatePolicy pid u cu now =>
      refine ⟨?_, ?_⟩
      · intro q hq hap
        simp only [step] at hq
        rcases mem_update_policy_policies db pid u cu now hq with hm | hd
        · exact ⟨q, hm, rfl, hap⟩
        · rw [hd] at hap; exact absurd hap (by decide)
      · intro q hq hap
        simp only [step] at hq
        rw [update_policy_keeps_bylaws] at hq
        exact ⟨q, hq, rfl, hap⟩
    | deletePolicy pid cu =>
      refine ⟨?_, ?_⟩
      · intro q hq hap
        simp only [step] at hq
        exact ⟨q, mem_delete_policy_policies db pid cu hq, rfl, hap⟩
      · intro q hq hap
        simp only [step] at hq
        rw [delete_policy_keeps_bylaws] at hq
        exact ⟨q, hq, rfl, hap⟩
    | createBylaw b cu now =>
      refine ⟨?_, ?_⟩
      · intro q hq hap
        simp only [step] at hq
        rw [create_bylaw_keeps_policies] at hq
        exact ⟨q, hq, rfl, hap⟩
      · intro q hq hap
        simp only [step] at hq
        rcases mem_create_bylaw_bylaws db b cu now hq with hm | hd
        · exact ⟨q, hm, rfl, hap⟩
        · rw [hd] at hap; exact absurd hap (by decide)
    | updateBylaw bid u cu now =>
      refine ⟨?_, ?_⟩
      · intro q hq hap
        simp only [step] at hq
        rw [update_bylaw_keeps_policies] at hq
        exact ⟨q, hq, rfl, hap⟩
      · intro q hq hap
        simp only [step] at hq
        rcases mem_update_bylaw_bylaws db bid u cu now hq with hm | hd
        · exact ⟨q, hm, rfl, hap⟩
        · rw [hd] at hap; exact absurd hap (by decide)
    | deleteBylaw bid cu =>
      refine ⟨?_, ?_⟩
      · intro q hq hap
        simp only [step] at hq
        rw [delete_bylaw_keeps_policies] at hq
        exact ⟨q, hq, rfl, hap⟩
      · intro q hq hap
        simp only [step] at hq
        exact ⟨q, mem_delete_bylaw_bylaws db bid cu hq, rfl, hap⟩
    | createSuggestion s now =>
      refine ⟨?_, ?_⟩
      · intro q hq hap
        simp only [step] at hq
        rw [(create_suggestion_keeps_content db s now).1] at hq
        exact ⟨q, hq, rfl, hap⟩
      · intro q hq hap
        simp only [step] at hq
        rw [(create_suggestion_keeps_content db s now).2] at hq
        exact ⟨q, hq, rfl, hap⟩
    | deleteSuggestion sid cu =>
      refine ⟨?_, ?_⟩
      · intro q hq hap
        simp only [step] at hq
        rw [(delete_suggestion_keeps_content db sid cu).1] at hq
        exact ⟨q, hq, rfl, hap⟩
      · intro q hq hap
        simp only [step] at hq
        rw [(delete_suggestion_keeps_content db sid cu).2] at hq
        exact ⟨q, hq, rfl, hap⟩
    | submitReview pid rs cu? now =>
      refine ⟨?_, ?_⟩
      · intro q hq hap
        simp only [step] at hq
        rw [(submit_policy_review_keeps_content db pid rs cu? now).1] at hq
        exact ⟨q, hq, rfl, hap⟩
      · intro q hq hap
        simp only [step] at hq
        rw [(submit_policy_review_keeps_content db pid rs cu? now).2] at hq
        exact ⟨q, hq, rfl, hap⟩
    | resetReviews cu =>
      refine ⟨?_, ?_⟩
      · intro q hq hap
        simp only [step] at hq
        rw [(reset_reviews_keeps_content db cu).1] at hq
        exact ⟨q, hq, rfl, hap⟩
      · intro q hq hap
        simp only [step] at hq
        rw [(reset_reviews_keeps_content db cu).2] at hq
        exact ⟨q, hq, rfl, hap⟩
    | loginOp us tok =>
      refine ⟨?_, ?_⟩
      · intro q hq hap
        simp only [step] at hq
        rw [(login_keeps_content db us tok).1] at hq
        exact ⟨q, hq, rfl, hap⟩
      · intro q hq hap
        simp only [step] at hq
        rw [(login_keeps_content db us tok).2] at hq
        exact ⟨q, hq, rfl, hap⟩

/-- C3 witness: updating the approved fixture policy with an empty body
returns a row whose stored status is `"draft"`. -/
theorem c3_witness :
    (applyPolicyUpdate ⟨none, none, none, none⟩ adminI 5 p1).status
      = "draft" := by
  exact (c3_draft_ratchet.1 dbP "1.1.1" ⟨none, none, none, none⟩ adminI 5
    (applyPolicyUpdate ⟨none, none, none, none⟩ adminI 5 p1)
    (update_policy dbP "1.1.1" ⟨none, none, none, none⟩ adminI 5).2
    (by rfl)).1
